import Mathlib

/-!
Shallow embedding of the Scorebot event-sourced game ledger and its
derivation passes, translated from the TypeScript sources:

* packages/shared/src/types.ts, packages/shared/src/utils.ts
  (data model, calculateScoreFromEvents, calculateLineStats),
* packages/bot/src/durable-objects/GameState.ts
  (initGame, startGame, addEvent, endGame, undoLastEvent, updateFields),
* packages/bot/src/services/StatsCalculator.ts
  (player attribution, calculatePlayerStats, aggregatePlayerStats).

Machine numbers are modelled as Nat or Int (all quantities involved are
small integers, exactly representable in JS doubles); per-game averages
use Rat, matching the exact value of the JS division on these inputs.
Nondeterministic inputs of the runtime (Date.now, generated ids) are
passed in as explicit parameters. JS truthiness tests on optional
parameters are modelled explicitly where the source relies on them.
-/

namespace Scorebot

/-- EventType enum from packages/shared/src/types.ts. -/
inductive EventType
  | game_start
  | goal
  | halftime
  | second_half_start
  | game_end
  | timeout
  | note
deriving DecidableEq, Repr

/-- TeamSide enum from packages/shared/src/types.ts. -/
inductive TeamSide
  | us
  | them
deriving DecidableEq, Repr

/-- DefensivePlay values carried on a GOAL event (block or steal). -/
inductive DefensivePlay
  | block
  | steal
deriving DecidableEq, Repr

/-- Score record with one counter per side. -/
structure Score where
  us : Nat
  them : Nat
deriving DecidableEq, Repr

/-- Increment of one side of a score, modelling score[team]++. -/
def Score.incr (s : Score) (t : TeamSide) : Score :=
  match t with
  | .us => { s with us := s.us + 1 }
  | .them => { s with them := s.them + 1 }

/-- Projection of the counter of one side of a score. -/
def sideScore (s : Score) (t : TeamSide) : Nat :=
  match t with
  | .us => s.us
  | .them => s.them

/-- GameEvent record from packages/shared/src/types.ts. Optional fields are
Option valued; the score field holds the score snapshot after the event. -/
structure GameEvent where
  id : String
  gameId : String
  type : EventType
  timestamp : Nat
  score : Score
  team : Option TeamSide := none
  message : Option String := none
  parsedBy : Option String := none
  defensivePlay : Option DefensivePlay := none
deriving DecidableEq, Repr

/-- GameStatus enum from packages/shared/src/types.ts. -/
inductive GameStatus
  | not_started
  | first_half
  | halftime
  | second_half
  | finished
deriving DecidableEq, Repr

/-- Team record (name plus side tag). -/
structure Team where
  name : String
  side : TeamSide
deriving DecidableEq, Repr

/-- Pair of teams of one game. -/
structure TeamPair where
  us : Team
  them : Team
deriving DecidableEq, Repr

/-- Game record from packages/shared/src/types.ts, with the tournament
metadata fields of the bot package. -/
structure Game where
  id : String
  status : GameStatus
  teams : TeamPair
  score : Score
  events : List GameEvent
  startedAt : Option Nat := none
  finishedAt : Option Nat := none
  startingOnOffense : Option Bool := none
  chatId : Option String := none
  tournamentName : Option String := none
  gameDate : Option String := none
  gameOrder : Option Nat := none
  createdAt : Nat
  updatedAt : Nat
deriving DecidableEq, Repr

/-- Translation of calculateScoreFromEvents from packages/shared/src/utils.ts:
fold over the events, incrementing score[team] for each goal event whose team
field is present (the JS test event.team is truthy exactly when the optional
team is present, since the enum values are nonempty strings). -/
def calculateScoreFromEvents (events : List GameEvent) : Score :=
  events.foldl
    (fun s e =>
      match e.type, e.team with
      | .goal, some t => s.incr t
      | _, _ => s)
    { us := 0, them := 0 }

/-- LineStats record from packages/shared/src/types.ts. -/
structure LineStats where
  oLinePoints : Nat
  oLineHolds : Nat
  oLineHoldPercentage : Nat
  dLinePoints : Nat
  dLineBreaks : Nat
  dLineBreakPercentage : Nat
deriving DecidableEq, Repr

/-- Value of Math.round states (num / den) * 100 for a nonnegative fraction
with positive denominator: round half up, computed exactly over Nat. -/
def roundPct (num den : Nat) : Nat :=
  (200 * num + den) / (2 * den)

/-- Accumulator of the goal loop of calculateLineStats. -/
structure LineAcc where
  oLinePoints : Nat := 0
  oLineHolds : Nat := 0
  dLinePoints : Nat := 0
  dLineBreaks : Nat := 0
  weHavePossession : Bool
deriving DecidableEq, Repr

/-- Body of the forEach loop of calculateLineStats: classify one goal as an
offense or defense point, then flip possession to the side that conceded. -/
def lineStep (acc : LineAcc) (e : GameEvent) : LineAcc :=
  let scoredUs : Bool := e.team == some TeamSide.us
  let acc1 :=
    if acc.weHavePossession then
      { acc with
        oLinePoints := acc.oLinePoints + 1,
        oLineHolds := acc.oLineHolds + (if scoredUs then 1 else 0) }
    else
      { acc with
        dLinePoints := acc.dLinePoints + 1,
        dLineBreaks := acc.dLineBreaks + (if scoredUs then 1 else 0) }
  { acc1 with weHavePossession := !scoredUs }

/-- Translation of calculateLineStats from packages/shared/src/utils.ts
(the version with line statistics). Returns none when startingOnOffense is
undefined, the all-zero record when there are no goal events, and otherwise
the fold of lineStep over the goal events with the percentage fields
computed by Math.round((holds / points) * 100). -/
def calculateLineStats (game : Game) : Option LineStats :=
  match game.startingOnOffense with
  | none => none
  | some startingOnOffense =>
    let goalEvents := game.events.filter (fun e => e.type == EventType.goal)
    if goalEvents.isEmpty then
      some { oLinePoints := 0, oLineHolds := 0, oLineHoldPercentage := 0,
             dLinePoints := 0, dLineBreaks := 0, dLineBreakPercentage := 0 }
    else
      let acc := goalEvents.foldl lineStep { weHavePossession := startingOnOffense }
      some { oLinePoints := acc.oLinePoints,
             oLineHolds := acc.oLineHolds,
             oLineHoldPercentage :=
               if acc.oLinePoints > 0 then roundPct acc.oLineHolds acc.oLinePoints else 0,
             dLinePoints := acc.dLinePoints,
             dLineBreaks := acc.dLineBreaks,
             dLineBreakPercentage :=
               if acc.dLinePoints > 0 then roundPct acc.dLineBreaks acc.dLinePoints else 0 }

/-- Error responses of the GameState durable object that are returned to the
caller with HTTP status 400 or 404 (never thrown). -/
inductive GameError
  | notFound
  | alreadyStarted
  | alreadyFinished
  | emptyLog
deriving DecidableEq, Repr

/-- Request body of POST /events on the GameState durable object
(AddEventRequest plus the optional parsedBy, defensivePlay,
startingOnOffense, timestamp and score fields read by addEvent). -/
structure AddEventRequest where
  type : EventType
  team : Option TeamSide := none
  message : Option String := none
  parsedBy : Option String := none
  defensivePlay : Option DefensivePlay := none
  startingOnOffense : Option Bool := none
  timestamp : Option Nat := none
  score : Option Score := none
deriving DecidableEq, Repr

/-- JS truthiness of the optional timestamp parameter: undefined and 0 are
falsy, every other number is truthy. The source guards the live status
updates with if ("not" timestamp) and picks the event time with
timestamp OR Date.now(), so a supplied timestamp of 0 behaves as absent. -/
def tsTruthy : Option Nat → Bool
  | none => false
  | some t => t != 0

/-- Event timestamp chosen by addEvent: the JS expression
timestamp OR Date.now(). -/
def jsOrNow (timestamp : Option Nat) (now : Nat) : Nat :=
  match timestamp with
  | some t => if t = 0 then now else t
  | none => now

/-- Stable insertion of an element into a list: the element is placed before
the first element it must strictly precede, hence after elements that
compare equal. -/
def stableInsert {α : Type} (lt : α → α → Bool) (x : α) : List α → List α
  | [] => [x]
  | y :: rest => if lt x y then x :: y :: rest else y :: stableInsert lt x rest

/-- Stable insertion sort: processing elements left to right and inserting
each after its equals reproduces the (stable) JS Array.prototype.sort. -/
def stableSort {α : Type} (lt : α → α → Bool) (l : List α) : List α :=
  l.foldl (fun acc x => stableInsert lt x acc) []

/-- Comparator of the re-sort in addEvent: (a, b) => a.timestamp - b.timestamp. -/
def eventLt (a b : GameEvent) : Bool :=
  a.timestamp < b.timestamp

/-- Re-sort of the event list by timestamp performed at the end of addEvent. -/
def sortEventsByTimestamp (l : List GameEvent) : List GameEvent :=
  stableSort eventLt l

namespace GameState

/-- Translation of GameState.initGame: builds the fresh game record in
status NOT_STARTED with empty log and zero score. The generated id and
Date.now() are passed in. -/
def initGame (gameId : String) (chatId ourTeamName opponentName : String)
    (tournamentName gameDate : Option String) (gameOrder : Option Nat)
    (now : Nat) : Game :=
  { id := gameId,
    status := .not_started,
    teams := { us := { name := ourTeamName, side := .us },
               them := { name := opponentName, side := .them } },
    score := { us := 0, them := 0 },
    events := [],
    chatId := some chatId,
    tournamentName := tournamentName,
    gameDate := gameDate,
    gameOrder := gameOrder,
    createdAt := now,
    updatedAt := now }

/-- Translation of GameState.startGame: fails with the already-started error
unless the status is NOT_STARTED, otherwise moves to FIRST_HALF, sets
startedAt, and pushes a GAME_START event at the end of the log (no re-sort
happens on this path). -/
def startGame (game : Game) (now : Nat) (eventId : String) :
    Except GameError (Game × GameEvent) :=
  if game.status ≠ GameStatus.not_started then
    .error .alreadyStarted
  else
    let game := { game with
      status := GameStatus.first_half,
      startedAt := some now,
      updatedAt := now }
    let event : GameEvent :=
      { id := eventId, gameId := game.id, type := .game_start,
        timestamp := now, score := game.score }
    .ok ({ game with events := game.events ++ [event] }, event)

/-- Translation of GameState.addEvent. In source order: increment the score
when the event is a goal with a team and no custom score; when no timestamp
is supplied perform the live status and clock updates (and record
startingOnOffense on GAME_START), while with a supplied timestamp only the
startingOnOffense flag of a GAME_START may update; build the event using
the supplied timestamp and score when present; push it and re-sort the log
by timestamp. The request never produces an error response once the game is
loaded. -/
def addEvent (game : Game) (req : AddEventRequest) (now : Nat)
    (eventId : String) : Game × GameEvent :=
  let game :=
    match req.type, req.team, req.score with
    | .goal, some t, none => { game with score := game.score.incr t }
    | _, _, _ => game
  let game :=
    if !tsTruthy req.timestamp then
      match req.type with
      | .game_start =>
        let g := { game with status := GameStatus.first_half, startedAt := some now }
        match req.startingOnOffense with
        | some b => { g with startingOnOffense := some b }
        | none => g
      | .halftime => { game with status := GameStatus.halftime }
      | .second_half_start => { game with status := GameStatus.second_half }
      | .game_end => { game with status := GameStatus.finished, finishedAt := some now }
      | _ => game
    else
      match req.type, req.startingOnOffense with
      | .game_start, some b => { game with startingOnOffense := some b }
      | _, _ => game
  let event : GameEvent :=
    { id := eventId,
      gameId := game.id,
      type := req.type,
      timestamp := jsOrNow req.timestamp now,
      score := req.score.getD game.score,
      team := req.team,
      message := req.message,
      parsedBy := req.parsedBy,
      defensivePlay := req.defensivePlay }
  ({ game with
      events := sortEventsByTimestamp (game.events ++ [event]),
      updatedAt := now },
   event)

/-- Translation of GameState.endGame: fails with the already-finished error
when the status is FINISHED, otherwise moves to FINISHED, sets finishedAt,
and pushes a GAME_END event at the end of the log (no re-sort on this path). -/
def endGame (game : Game) (now : Nat) (eventId : String) :
    Except GameError (Game × GameEvent) :=
  if game.status = GameStatus.finished then
    .error .alreadyFinished
  else
    let game := { game with
      status := GameStatus.finished,
      finishedAt := some now,
      updatedAt := now }
    let event : GameEvent :=
      { id := eventId, gameId := game.id, type := .game_end,
        timestamp := now, score := game.score }
    .ok ({ game with events := game.events ++ [event] }, event)

/-- Translation of GameState.undoLastEvent: fails with the empty-log error
when there is no event; otherwise pops the last event of the array,
recomputes the score from the remaining events, patches the status from the
type of the new last event (HALFTIME, SECOND_HALF_START and GAME_START map
to their statuses, any other type leaves the status alone), and resets to
NOT_STARTED with startedAt cleared when nothing remains. -/
def undoLastEvent (game : Game) (now : Nat) :
    Except GameError (Game × GameEvent) :=
  match game.events.getLast? with
  | none => .error .emptyLog
  | some lastEvent =>
    let remaining := game.events.dropLast
    let game := { game with
      events := remaining,
      score := calculateScoreFromEvents remaining }
    let game :=
      match remaining.getLast? with
      | some lastRemaining =>
        match lastRemaining.type with
        | .halftime => { game with status := GameStatus.halftime }
        | .second_half_start => { game with status := GameStatus.second_half }
        | .game_start => { game with status := GameStatus.first_half }
        | _ => game
      | none => { game with status := GameStatus.not_started, startedAt := none }
    .ok ({ game with updatedAt := now }, lastEvent)

/-- Translation of GameState.updateFields (PATCH /update): out-of-band
update of the startingOnOffense flag, bypassing the event log. -/
def updateFields (game : Game) (startingOnOffense : Option Bool) (now : Nat) : Game :=
  match startingOnOffense with
  | some b => { game with startingOnOffense := some b, updatedAt := now }
  | none => { game with updatedAt := now }

end GameState

/-- Status obtained by replaying the remaining log from scratch, the
reference point of the round-trip property of the spec: starting from
NOT_STARTED, each event type updates the status exactly as a live
appendEvent or start command would (GAME_START to FIRST_HALF, HALFTIME to
HALFTIME, SECOND_HALF_START to SECOND_HALF, GAME_END to FINISHED, all
other types leave the status unchanged). -/
def statusFromEvents (events : List GameEvent) : GameStatus :=
  events.foldl
    (fun st e =>
      match e.type with
      | .game_start => GameStatus.first_half
      | .halftime => GameStatus.halftime
      | .second_half_start => GameStatus.second_half
      | .game_end => GameStatus.finished
      | _ => st)
    GameStatus.not_started

/-- Decidable check that a list of events is sorted by timestamp in
non-decreasing order. -/
def sortedByTimestamp : List GameEvent → Bool
  | [] => true
  | [_] => true
  | a :: b :: rest => a.timestamp ≤ b.timestamp && sortedByTimestamp (b :: rest)

/-- Count of the goal events of one side in a log. -/
def countGoalEvents (side : TeamSide) (events : List GameEvent) : Nat :=
  (events.filter (fun e => e.type == EventType.goal && e.team == some side)).length

/-- Stable insertion produces a permutation of consing the element. -/
theorem stableInsert_perm {α : Type} (lt : α → α → Bool) (x : α) (l : List α) :
    (stableInsert lt x l).Perm (x :: l) := by
  induction l with
  | nil => simp [stableInsert]
  | cons y rest ih =>
    simp only [stableInsert]
    split
    · exact List.Perm.refl _
    · exact List.Perm.trans (ih.cons y) (List.Perm.swap x y rest)

/-- Stable sort produces a permutation of the input list. -/
theorem stableSort_perm {α : Type} (lt : α → α → Bool) (l : List α) :
    (stableSort lt l).Perm l := by
  suffices h : ∀ acc : List α,
      (l.foldl (fun acc x => stableInsert lt x acc) acc).Perm (l ++ acc) by
    simpa using h []
  induction l with
  | nil => intro acc; simp
  | cons x rest ih =>
    intro acc
    refine List.Perm.trans (ih (stableInsert lt x acc)) ?_
    refine List.Perm.trans (List.Perm.append_left rest (stableInsert_perm lt x acc)) ?_
    exact List.perm_middle

/-- Lower bound of the head timestamp of a list, with the empty list
trivially bounded. -/
def headTsLB (t : Nat) : List GameEvent → Bool
  | [] => true
  | b :: _ => decide (t ≤ b.timestamp)

/-- Unfolding of the sortedness check one element at a time. -/
theorem sortedByTimestamp_cons (a : GameEvent) (l : List GameEvent) :
    sortedByTimestamp (a :: l) = (headTsLB a.timestamp l && sortedByTimestamp l) := by
  cases l with
  | nil => simp [sortedByTimestamp, headTsLB]
  | cons b rest => simp [sortedByTimestamp, headTsLB]

/-- Inserting into a timestamp-sorted list keeps it sorted. -/
theorem sortedByTimestamp_stableInsert (x : GameEvent) (l : List GameEvent)
    (hl : sortedByTimestamp l = true) :
    sortedByTimestamp (stableInsert eventLt x l) = true := by
  induction l with
  | nil => simp [stableInsert, sortedByTimestamp]
  | cons y rest ih =>
    rw [sortedByTimestamp_cons, Bool.and_eq_true] at hl
    simp only [stableInsert]
    split
    · rename_i hlt
      simp only [eventLt, decide_eq_true_eq] at hlt
      rw [sortedByTimestamp_cons, Bool.and_eq_true]
      refine ⟨by simp [headTsLB, Nat.le_of_lt hlt], ?_⟩
      rw [sortedByTimestamp_cons, Bool.and_eq_true]
      exact ⟨hl.1, hl.2⟩
    · rename_i hge
      simp only [eventLt, decide_eq_true_eq] at hge
      rw [sortedByTimestamp_cons, Bool.and_eq_true]
      refine ⟨?_, ih hl.2⟩
      cases rest with
      | nil => simp [stableInsert, headTsLB]; omega
      | cons z zs =>
        simp only [stableInsert]
        split
        · simp [headTsLB]; omega
        · have h1 := hl.1
          simpa [headTsLB] using h1

/-- Output of the timestamp sort is always sorted. -/
theorem sortedByTimestamp_sortEvents (l : List GameEvent) :
    sortedByTimestamp (sortEventsByTimestamp l) = true := by
  suffices h : ∀ acc : List GameEvent, sortedByTimestamp acc = true →
      sortedByTimestamp (l.foldl (fun acc x => stableInsert eventLt x acc) acc) = true by
    exact h [] rfl
  induction l with
  | nil => intro acc hacc; simpa using hacc
  | cons x rest ih =>
    intro acc hacc
    exact ih _ (sortedByTimestamp_stableInsert x acc hacc)

/-- Appending an event whose timestamp dominates every timestamp of a sorted
list keeps the list sorted. -/
theorem sortedByTimestamp_append_last (l : List GameEvent) (e : GameEvent)
    (hl : sortedByTimestamp l = true)
    (hle : ∀ x ∈ l, x.timestamp ≤ e.timestamp) :
    sortedByTimestamp (l ++ [e]) = true := by
  induction l with
  | nil => simp [sortedByTimestamp]
  | cons a rest ih =>
    rw [sortedByTimestamp_cons, Bool.and_eq_true] at hl
    rw [List.cons_append, sortedByTimestamp_cons, Bool.and_eq_true]
    refine ⟨?_, ih hl.2 (fun x hx => hle x (List.mem_cons_of_mem a hx))⟩
    cases rest with
    | nil => simpa [headTsLB] using hle a (List.mem_cons_self a [])
    | cons b bs =>
      have h1 := hl.1
      simpa [headTsLB] using h1

/-- Length is preserved by the timestamp sort. -/
theorem length_sortEvents (l : List GameEvent) :
    (sortEventsByTimestamp l).length = l.length :=
  (stableSort_perm eventLt l).length_eq

/-- Goal counts are preserved by the timestamp sort. -/
theorem countGoalEvents_sortEvents (side : TeamSide) (l : List GameEvent) :
    countGoalEvents side (sortEventsByTimestamp l) = countGoalEvents side l := by
  unfold countGoalEvents
  exact ((stableSort_perm eventLt l).filter _).length_eq

/-- Concrete pair of teams used by the example games. -/
def twoTeams : TeamPair :=
  { us := { name := "Red", side := .us }, them := { name := "Blue", side := .them } }

/-- Concrete goal event builder for the example games. -/
def goalEvt (i : String) (ts : Nat) (t : TeamSide) (sc : Score) : GameEvent :=
  { id := i, gameId := "game_1", type := .goal, timestamp := ts, score := sc,
    team := some t }

/-- Freshly initialized example game. -/
def freshGame : Game :=
  GameState.initGame "game_1" "chat_1" "Red" "Blue" none none none 0

/-- Example game right after the start command: status FIRST_HALF with the
GAME_START event logged. -/
def startedGame : Game :=
  { freshGame with
    status := .first_half,
    startedAt := some 1,
    updatedAt := 1,
    events := [{ id := "ev_start", gameId := "game_1", type := .game_start,
                 timestamp := 1, score := { us := 0, them := 0 } }] }

/-- Example game whose ordered goal sequence is US, THEM, US and whose
starting possession is offense. -/
def lineGameOffense : Game :=
  { id := "game_1", status := .finished, teams := twoTeams,
    score := { us := 2, them := 1 },
    events := [goalEvt "e1" 10 .us { us := 1, them := 0 },
               goalEvt "e2" 20 .them { us := 1, them := 1 },
               goalEvt "e3" 30 .us { us := 2, them := 1 }],
    startingOnOffense := some true, createdAt := 0, updatedAt := 0 }

/-- Example game whose ordered goal sequence is US, THEM, US and whose
starting possession is defense. -/
def lineGameDefense : Game :=
  { lineGameOffense with startingOnOffense := some false }

/-- Example game with goal events but unknown starting possession. -/
def unknownPossessionGame : Game :=
  { lineGameOffense with startingOnOffense := none }

/-- Example game with known possession and only non-goal events. -/
def noGoalGame : Game :=
  { id := "game_1", status := .halftime, teams := twoTeams,
    score := { us := 0, them := 0 },
    events := [{ id := "e1", gameId := "game_1", type := .game_start,
                 timestamp := 1, score := { us := 0, them := 0 } },
               { id := "e2", gameId := "game_1", type := .timeout,
                 timestamp := 2, score := { us := 0, them := 0 },
                 team := some .us },
               { id := "e3", gameId := "game_1", type := .halftime,
                 timestamp := 3, score := { us := 0, them := 0 } }],
    startingOnOffense := some true, createdAt := 0, updatedAt := 0 }

/-- C3: the possession classifier on starting possession offense and the
goal sequence US, THEM, US yields two offense points, both held, and one
defense point with no break, while on starting possession defense it
yields one offense point held and two defense points with one break and a
50 percent break rate. -/
theorem lineStats_us_them_us :
    calculateLineStats lineGameOffense =
      some { oLinePoints := 2, oLineHolds := 2, oLineHoldPercentage := 100,
             dLinePoints := 1, dLineBreaks := 0, dLineBreakPercentage := 0 } ∧
    calculateLineStats lineGameDefense =
      some { oLinePoints := 1, oLineHolds := 1, oLineHoldPercentage := 100,
             dLinePoints := 2, dLineBreaks := 1, dLineBreakPercentage := 50 } := by
  decide

/-- C5: computing line stats for a game whose starting possession is unknown
returns the distinguished unavailable value none, never a zero record, for
every event log. -/
theorem lineStats_unknown_possession (g : Game)
    (h : g.startingOnOffense = none) :
    calculateLineStats g = none := by
  simp [calculateLineStats, h]

/-- Witness for lineStats_unknown_possession at a game with goal events. -/
theorem lineStats_unknown_possession_witness :
    unknownPossessionGame.startingOnOffense = none ∧
    calculateLineStats unknownPossessionGame = none :=
  ⟨rfl, lineStats_unknown_possession unknownPossessionGame rfl⟩

/-- C10: computing line stats for a game with known starting possession and
no goal events returns the all-zero record, not the unavailable value,
regardless of the non-goal events in the log. -/
theorem lineStats_no_goals (g : Game) (b : Bool)
    (h1 : g.startingOnOffense = some b)
    (h2 : ∀ e ∈ g.events, e.type ≠ EventType.goal) :
    calculateLineStats g =
      some { oLinePoints := 0, oLineHolds := 0, oLineHoldPercentage := 0,
             dLinePoints := 0, dLineBreaks := 0, dLineBreakPercentage := 0 } := by
  have hfilter : g.events.filter (fun e => e.type == EventType.goal) = [] := by
    simp only [List.filter_eq_nil_iff]
    intro e he
    simpa using h2 e he
  simp [calculateLineStats, h1, hfilter]

/-- Witness for lineStats_no_goals at a game holding a start, a timeout and
a halftime event. -/
theorem lineStats_no_goals_witness :
    noGoalGame.startingOnOffense = some true ∧
    calculateLineStats noGoalGame =
      some { oLinePoints := 0, oLineHolds := 0, oLineHoldPercentage := 0,
             dLinePoints := 0, dLineBreaks := 0, dLineBreakPercentage := 0 } :=
  ⟨rfl, lineStats_no_goals noGoalGame true rfl (by decide)⟩

/-- C6: the start command on a game that is not in NOT_STARTED fails with
the already-started error, and retracting on an empty log fails with the
empty-log error; both errors are values returned to the caller (the Except
result carries no mutated game, matching the source where the error
response returns before any field is written). -/
theorem start_twice_and_undo_empty_fail :
    (∀ (g : Game) (now : Nat) (eid : String), g.status ≠ GameStatus.not_started →
      GameState.startGame g now eid = .error .alreadyStarted) ∧
    (∀ (g : Game) (now : Nat), g.events = [] →
      GameState.undoLastEvent g now = .error .emptyLog) := by
  constructor
  · intro g now eid h
    simp [GameState.startGame, h]
  · intro g now h
    simp [GameState.undoLastEvent, h]

/-- Witness for start_twice_and_undo_empty_fail: starting an already started
game and retracting from a fresh game. -/
theorem start_twice_and_undo_empty_fail_witness :
    GameState.startGame startedGame 5 "ev2" = .error .alreadyStarted ∧
    GameState.undoLastEvent freshGame 5 = .error .emptyLog :=
  ⟨start_twice_and_undo_empty_fail.1 startedGame 5 "ev2" (by decide),
   start_twice_and_undo_empty_fail.2 freshGame 5 (by decide)⟩

/-- C7 counterexample: a GOAL event with no team supplied is not rejected by
addEvent. The command succeeds (addEvent returns a game and an event, there
is no validation branch in the source), the event is appended to the log,
and the score is left unchanged — contradicting the claim that the command
fails with a validation error and appends nothing. -/
theorem addEvent_goal_without_team_cex :
    (GameState.addEvent startedGame { type := EventType.goal } 7 "ev3").1.events.length
        = startedGame.events.length + 1 ∧
    (GameState.addEvent startedGame { type := EventType.goal } 7 "ev3").1.score
        = startedGame.score ∧
    (GameState.addEvent startedGame { type := EventType.goal } 7 "ev3").2.type
        = EventType.goal := by
  decide

/-- C7 amended: appendEvent with type GOAL and no team supplied succeeds
without any error (addEvent is total once the game is loaded), appends the
event — carrying no team — to the log, and leaves the score unchanged. -/
theorem addEvent_goal_without_team (g : Game) (req : AddEventRequest)
    (now : Nat) (eid : String)
    (ht : req.type = EventType.goal) (hteam : req.team = none) :
    (GameState.addEvent g req now eid).1.score = g.score ∧
    (GameState.addEvent g req now eid).1.events.length = g.events.length + 1 ∧
    (GameState.addEvent g req now eid).2.team = none := by
  obtain ⟨ty, team, msg, pb, dp, soo, ts, sc⟩ := req
  simp only at ht hteam
  subst ht hteam
  simp [GameState.addEvent, length_sortEvents]

/-- Witness for addEvent_goal_without_team. -/
theorem addEvent_goal_without_team_witness :
    (GameState.addEvent startedGame { type := EventType.goal } 7 "ev3").1.score
        = startedGame.score ∧
    (GameState.addEvent startedGame { type := EventType.goal } 7 "ev3").1.events.length
        = startedGame.events.length + 1 ∧
    (GameState.addEvent startedGame { type := EventType.goal } 7 "ev3").2.team = none := by
  have h := addEvent_goal_without_team startedGame { type := EventType.goal } 7 "ev3" rfl rfl
  exact ⟨h.1, h.2.1, h.2.2⟩

/-- C4 counterexample: a backfilled GOAL with a team and no score override
does increment the derived score — the timestamp guard in the source only
suppresses the status and clock updates, not the score update — so under a
supplied timestamp a field other than the log and the possession flag
changes. -/
theorem addEvent_backfill_changes_score_cex :
    tsTruthy (({ type := EventType.goal, team := some TeamSide.us,
                 timestamp := some 5 } : AddEventRequest)).timestamp = true ∧
    (GameState.addEvent startedGame
        { type := EventType.goal, team := some TeamSide.us, timestamp := some 5 }
        50 "ev4").1.score ≠ startedGame.score := by
  decide

/-- C4 amended: under a supplied (truthy) timestamp the status, startedAt
and finishedAt fields — and the identity, team, creation and chat fields —
are unchanged; of the remaining fields only the event log, updatedAt, the
possession flag (for a GAME_START carrying one) and the score (for a GOAL
with a team and no score override) may change: the score is unchanged
whenever the event is not such a goal, and the possession flag is unchanged
whenever the event is not a GAME_START carrying one. -/
theorem addEvent_backfill_frame (g : Game) (req : AddEventRequest)
    (now : Nat) (eid : String) (h : tsTruthy req.timestamp = true) :
    (GameState.addEvent g req now eid).1.status = g.status ∧
    (GameState.addEvent g req now eid).1.startedAt = g.startedAt ∧
    (GameState.addEvent g req now eid).1.finishedAt = g.finishedAt ∧
    (GameState.addEvent g req now eid).1.id = g.id ∧
    (GameState.addEvent g req now eid).1.teams = g.teams ∧
    (GameState.addEvent g req now eid).1.createdAt = g.createdAt ∧
    (GameState.addEvent g req now eid).1.chatId = g.chatId ∧
    (¬(req.type = EventType.goal ∧ req.team.isSome ∧ req.score = none) →
      (GameState.addEvent g req now eid).1.score = g.score) ∧
    (¬(req.type = EventType.game_start ∧ req.startingOnOffense.isSome) →
      (GameState.addEvent g req now eid).1.startingOnOffense = g.startingOnOffense) := by
  obtain ⟨ty, team, msg, pb, dp, soo, ts, sc⟩ := req
  simp only at h ⊢
  simp only [GameState.addEvent, h, Bool.not_true, Bool.false_eq_true, if_false]
  cases ty <;> cases team <;> cases sc <;> cases soo <;> simp_all

/-- Witness for addEvent_backfill_frame at a backfilled HALFTIME event. -/
theorem addEvent_backfill_frame_witness :
    (GameState.addEvent startedGame { type := EventType.halftime, timestamp := some 5 }
        50 "ev5").1.status = startedGame.status ∧
    (GameState.addEvent startedGame { type := EventType.halftime, timestamp := some 5 }
        50 "ev5").1.score = startedGame.score := by
  have h := addEvent_backfill_frame startedGame
    { type := EventType.halftime, timestamp := some 5 } 50 "ev5" (by decide)
  exact ⟨h.1, h.2.2.2.2.2.2.2.1 (by simp)⟩

/-- Game obtained by backfilling a goal with a future timestamp into a fresh
game; the log is sorted and the status is still NOT_STARTED. -/
def backfilledGame : Game :=
  (GameState.addEvent freshGame
     { type := EventType.goal, team := some TeamSide.us, timestamp := some 100 }
     10 "ev_b").1

/-- C8 counterexample: starting the game after a goal was backfilled with a
timestamp in the clock future appends the GAME_START event at the tail
without re-sorting, leaving the log out of timestamp order — so sortedness
is not an invariant preserved by every command. -/
theorem log_sorted_cex :
    backfilledGame.status = GameStatus.not_started ∧
    sortedByTimestamp backfilledGame.events = true ∧
    (GameState.startGame backfilledGame 50 "ev_s").toOption.map
        (fun p => sortedByTimestamp p.1.events) = some false := by
  decide

/-- C8 amended: appendEvent re-sorts, so its log is always sorted by
timestamp, from any prior log; the start and end-game commands push their
event at the tail without sorting, so they preserve sortedness exactly when
the current clock value is no smaller than every timestamp already in the
log (which a backfilled future timestamp can violate). -/
theorem log_sorted_after_commands :
    (∀ (g : Game) (req : AddEventRequest) (now : Nat) (eid : String),
      sortedByTimestamp (GameState.addEvent g req now eid).1.events = true) ∧
    (∀ (g : Game) (now : Nat) (eid : String) (g' : Game) (ev : GameEvent),
      sortedByTimestamp g.events = true →
      (∀ e ∈ g.events, e.timestamp ≤ now) →
      GameState.startGame g now eid = .ok (g', ev) →
      sortedByTimestamp g'.events = true) ∧
    (∀ (g : Game) (now : Nat) (eid : String) (g' : Game) (ev : GameEvent),
      sortedByTimestamp g.events = true →
      (∀ e ∈ g.events, e.timestamp ≤ now) →
      GameState.endGame g now eid = .ok (g', ev) →
      sortedByTimestamp g'.events = true) := by
  refine ⟨?_, ?_, ?_⟩
  · intro g req now eid
    simp only [GameState.addEvent]
    exact sortedByTimestamp_sortEvents _
  · intro g now eid g' ev hs hle hok
    by_cases hst : g.status = GameStatus.not_started
    · simp only [GameState.startGame, hst, ne_eq, not_true_eq_false, if_false,
        ite_false, Except.ok.injEq, Prod.mk.injEq] at hok
      obtain ⟨hg', _⟩ := hok
      subst hg'
      exact sortedByTimestamp_append_last _ _ hs (by simpa using hle)
    · simp [GameState.startGame, hst] at hok
  · intro g now eid g' ev hs hle hok
    by_cases hst : g.status = GameStatus.finished
    · simp [GameState.endGame, hst] at hok
    · simp only [GameState.endGame, hst, if_false, ite_false, Except.ok.injEq,
        Prod.mk.injEq] at hok
      obtain ⟨hg', _⟩ := hok
      subst hg'
      exact sortedByTimestamp_append_last _ _ hs (by simpa using hle)

/-- Placeholder event used only as the fallback of Option.getD below. -/
def dummyEvent : GameEvent :=
  { id := "", gameId := "", type := .note, timestamp := 0,
    score := { us := 0, them := 0 } }

/-- Result of starting the fresh game at time 3. -/
def startedFromFresh : Game × GameEvent :=
  (GameState.startGame freshGame 3 "ev_s").toOption.getD (freshGame, dummyEvent)

/-- Result of ending the started game at time 5. -/
def endedFromStarted : Game × GameEvent :=
  (GameState.endGame startedGame 5 "ev_e").toOption.getD (startedGame, dummyEvent)

/-- Start of the fresh game indeed succeeds with the payload above. -/
theorem startedFromFresh_eq :
    GameState.startGame freshGame 3 "ev_s" = .ok (startedFromFresh.1, startedFromFresh.2) :=
  rfl

/-- End of the started game indeed succeeds with the payload above. -/
theorem endedFromStarted_eq :
    GameState.endGame startedGame 5 "ev_e" = .ok (endedFromStarted.1, endedFromStarted.2) :=
  rfl

/-- Witness for log_sorted_after_commands: a backfilled append on the fresh
game, then starting the fresh game, then ending the started game. -/
theorem log_sorted_after_commands_witness :
    sortedByTimestamp (GameState.addEvent freshGame
      { type := EventType.goal, team := some TeamSide.us, timestamp := some 100 }
      10 "ev_b").1.events = true ∧
    sortedByTimestamp startedFromFresh.1.events = true ∧
    sortedByTimestamp endedFromStarted.1.events = true :=
  ⟨log_sorted_after_commands.1 freshGame
      { type := EventType.goal, team := some TeamSide.us, timestamp := some 100 }
      10 "ev_b",
   log_sorted_after_commands.2.1 freshGame 3 "ev_s" startedFromFresh.1 startedFromFresh.2
      (by decide) (by decide) startedFromFresh_eq,
   log_sorted_after_commands.2.2 startedGame 5 "ev_e" endedFromStarted.1 endedFromStarted.2
      (by decide) (by decide) endedFromStarted_eq⟩

/-- Score field of the result of addEvent: incremented for a goal with a
team and no score override, untouched otherwise. -/
theorem addEvent_score_eq (g : Game) (req : AddEventRequest) (now : Nat) (eid : String) :
    (GameState.addEvent g req now eid).1.score =
      (match req.type, req.team, req.score with
       | .goal, some t, none => g.score.incr t
       | _, _, _ => g.score) := by
  obtain ⟨ty, team, msg, pb, dp, soo, ts, sc⟩ := req
  cases htt : tsTruthy ts <;> cases ty <;> cases team <;> cases sc <;> cases soo <;>
    simp [GameState.addEvent, htt]

/-- Event list of the result of addEvent: the old list with the new event
pushed at the end, re-sorted by timestamp. -/
theorem addEvent_events_eq (g : Game) (req : AddEventRequest) (now : Nat) (eid : String) :
    (GameState.addEvent g req now eid).1.events =
      sortEventsByTimestamp (g.events ++ [(GameState.addEvent g req now eid).2]) := by
  obtain ⟨ty, team, msg, pb, dp, soo, ts, sc⟩ := req
  cases htt : tsTruthy ts <;> cases ty <;> cases team <;> cases sc <;> cases soo <;>
    simp [GameState.addEvent, htt]

/-- Type and team of the event built by addEvent come from the request. -/
theorem addEvent_event_fields (g : Game) (req : AddEventRequest) (now : Nat) (eid : String) :
    (GameState.addEvent g req now eid).2.type = req.type ∧
    (GameState.addEvent g req now eid).2.team = req.team := by
  obtain ⟨ty, team, msg, pb, dp, soo, ts, sc⟩ := req
  cases htt : tsTruthy ts <;> cases ty <;> cases team <;> cases sc <;> cases soo <;>
    simp [GameState.addEvent, htt]

/-- Goal count distributes over list append. -/
theorem countGoalEvents_append (side : TeamSide) (l1 l2 : List GameEvent) :
    countGoalEvents side (l1 ++ l2) =
      countGoalEvents side l1 + countGoalEvents side l2 := by
  simp [countGoalEvents, List.filter_append]

/-- Goal count of a one-event list. -/
theorem countGoalEvents_singleton (side : TeamSide) (e : GameEvent) :
    countGoalEvents side [e] =
      if e.type = EventType.goal ∧ e.team = some side then 1 else 0 := by
  by_cases h : e.type = EventType.goal ∧ e.team = some side
  · simp [countGoalEvents, h.1, h.2]
  · have : (e.type == EventType.goal && e.team == some side) = false := by
      rcases not_and_or.mp h with h1 | h1 <;> simp [h1]
    simp [countGoalEvents, this, h]

/-- Incrementing one side of a score as seen through the side projection. -/
theorem sideScore_incr (s : Score) (t side : TeamSide) :
    sideScore (s.incr t) side = sideScore s side + if t = side then 1 else 0 := by
  cases t <;> cases side <;> simp [sideScore, Score.incr]

/-- Application of a list of addEvent commands, each with its own clock
value and generated event id. -/
def applyAddEvents (g : Game) (rs : List (AddEventRequest × Nat × String)) : Game :=
  rs.foldl (fun g r => (GameState.addEvent g r.1 r.2.1 r.2.2).1) g

/-- C1: starting from any game whose score already counts the goal events
of its log side by side (for example a freshly initialized game), after any
sequence of appendEvent commands in which no GOAL carries a score override,
the derived score of each side equals the number of goal events of that
side in the log; a command sequence containing score-overridden GOAL
events is excluded by the hypothesis, since such an event enters the log
without incrementing the derived score. -/
theorem score_counts_goal_events (g : Game) (rs : List (AddEventRequest × Nat × String))
    (side : TeamSide)
    (hbase : sideScore g.score side = countGoalEvents side g.events)
    (hov : ∀ r ∈ rs, r.1.type = EventType.goal → r.1.score = none) :
    sideScore (applyAddEvents g rs).score side =
      countGoalEvents side (applyAddEvents g rs).events := by
  induction rs generalizing g with
  | nil => simpa [applyAddEvents] using hbase
  | cons r rest ih =>
    obtain ⟨req, now, eid⟩ := r
    have hr : req.type = EventType.goal → req.score = none :=
      hov (req, now, eid) (List.mem_cons_self _ _)
    have hstep :
        sideScore (GameState.addEvent g req now eid).1.score side =
          countGoalEvents side (GameState.addEvent g req now eid).1.events := by
      rw [addEvent_score_eq, addEvent_events_eq, countGoalEvents_sortEvents,
        countGoalEvents_append, countGoalEvents_singleton,
        (addEvent_event_fields g req now eid).1, (addEvent_event_fields g req now eid).2]
      by_cases hgoal : req.type = EventType.goal
      · have hsc := hr hgoal
        cases hteam : req.team with
        | none => simp [hgoal, hteam, hsc, hbase]
        | some t =>
          simp only [hgoal, hteam, hsc]
          rw [sideScore_incr]
          by_cases hts : t = side
          · simp [hts, hbase]
          · simp [hts, hbase]
      · have h0 : ¬(req.type = EventType.goal ∧ req.team = some side) := by
          intro hc; exact hgoal hc.1
        cases hty : req.type <;> cases hteamv : req.team <;> cases hscv : req.score <;>
          simp_all [hbase]
    have := ih (GameState.addEvent g req now eid).1 hstep
      (fun r hrmem => hov r (List.mem_cons_of_mem _ hrmem))
    simpa [applyAddEvents] using this

/-- Witness for score_counts_goal_events: from the started game, a goal for
us, a timeout, a goal for them and another goal for us give score us 2,
them 1, matching the goal counts of the final log. -/
theorem score_counts_goal_events_witness :
    sideScore (applyAddEvents startedGame
      [({ type := EventType.goal, team := some TeamSide.us }, 2, "ev_a"),
       ({ type := EventType.timeout, team := some TeamSide.us }, 3, "ev_b"),
       ({ type := EventType.goal, team := some TeamSide.them }, 4, "ev_c"),
       ({ type := EventType.goal, team := some TeamSide.us }, 5, "ev_d")]).score TeamSide.us =
      countGoalEvents TeamSide.us (applyAddEvents startedGame
      [({ type := EventType.goal, team := some TeamSide.us }, 2, "ev_a"),
       ({ type := EventType.timeout, team := some TeamSide.us }, 3, "ev_b"),
       ({ type := EventType.goal, team := some TeamSide.them }, 4, "ev_c"),
       ({ type := EventType.goal, team := some TeamSide.us }, 5, "ev_d")]).events :=
  score_counts_goal_events startedGame _ TeamSide.us (by decide) (by decide)

/-- Replay status of a log ending in a given event. -/
theorem statusFromEvents_append_last (l : List GameEvent) (e : GameEvent) :
    statusFromEvents (l ++ [e]) =
      (match e.type with
       | .game_start => GameStatus.first_half
       | .halftime => GameStatus.halftime
       | .second_half_start => GameStatus.second_half
       | .game_end => GameStatus.finished
       | _ => statusFromEvents l) := by
  cases he : e.type <;> simp [statusFromEvents, List.foldl_append, he]

/-- Replay status read off the last event of a nonempty log. -/
theorem statusFromEvents_of_getLast (l : List GameEvent) (e : GameEvent)
    (h : l.getLast? = some e) :
    statusFromEvents l =
      (match e.type with
       | .game_start => GameStatus.first_half
       | .halftime => GameStatus.halftime
       | .second_half_start => GameStatus.second_half
       | .game_end => GameStatus.finished
       | _ => statusFromEvents l.dropLast) := by
  conv_lhs => rw [← List.dropLast_append_getLast? e h]
  exact statusFromEvents_append_last _ _

/-- Example game that reached HALFTIME after a goal: log GAME_START, GOAL
for us, HALFTIME. -/
def undoHalftimeGame : Game :=
  { id := "game_1", status := .halftime, teams := twoTeams,
    score := { us := 1, them := 0 },
    events := [{ id := "e1", gameId := "game_1", type := .game_start,
                 timestamp := 1, score := { us := 0, them := 0 } },
               goalEvt "e2" 2 .us { us := 1, them := 0 },
               { id := "e3", gameId := "game_1", type := .halftime,
                 timestamp := 3, score := { us := 1, them := 0 } }],
    startedAt := some 1, createdAt := 0, updatedAt := 3 }

/-- C2 counterexample: retracting the HALFTIME event from the log
GAME_START, GOAL, HALFTIME leaves the incremental status at HALFTIME
(the new last event is a GOAL, whose type patches nothing), while
replaying the remaining log from scratch yields FIRST_HALF — so the
incremental recomputation does not match the replay.  -/
theorem undo_replay_cex :
    (GameState.undoLastEvent undoHalftimeGame 9).toOption.map
        (fun p => (p.1.status, statusFromEvents p.1.events)) =
      some (GameStatus.halftime, GameStatus.first_half) ∧
    GameStatus.halftime ≠ GameStatus.first_half := by
  decide

/-- C2 amended: retraction always recomputes the score exactly as a replay
of the remaining log would; the status matches the replay whenever the log
becomes empty or the new last event is GAME_START, HALFTIME or
SECOND_HALF_START, while for any other new last event type the incremental
status keeps its pre-retraction value, which can differ from the replayed
status. -/
theorem undoLastEvent_replay (g : Game) (now : Nat) (g' : Game) (ev : GameEvent)
    (hok : GameState.undoLastEvent g now = .ok (g', ev)) :
    g'.score = calculateScoreFromEvents g'.events ∧
    (g'.events = [] → g'.status = statusFromEvents g'.events) ∧
    (∀ lastE, g'.events.getLast? = some lastE →
      (lastE.type = EventType.game_start ∨ lastE.type = EventType.halftime ∨
        lastE.type = EventType.second_half_start) →
      g'.status = statusFromEvents g'.events) ∧
    (∀ lastE, g'.events.getLast? = some lastE →
      lastE.type ≠ EventType.game_start → lastE.type ≠ EventType.halftime →
      lastE.type ≠ EventType.second_half_start →
      g'.status = g.status) := by
  cases hL : g.events.getLast? with
  | none => simp [GameState.undoLastEvent, hL] at hok
  | some lastEvent =>
    simp only [GameState.undoLastEvent, hL] at hok
    cases hR : (g.events.dropLast).getLast? with
    | none =>
      have hrem : g.events.dropLast = [] := List.getLast?_eq_none_iff.mp hR
      simp only [hR, Except.ok.injEq, Prod.mk.injEq] at hok
      obtain ⟨hg, hev⟩ := hok
      subst hg
      refine ⟨rfl, ?_, ?_, ?_⟩
      · intro h0
        show GameStatus.not_started = statusFromEvents g.events.dropLast
        rw [hrem]
        simp [statusFromEvents]
      · intro lastE hE hty
        have hE' : (g.events.dropLast).getLast? = some lastE := hE
        rw [hrem] at hE'
        simp at hE'
      · intro lastE hE h1 h2 h3
        have hE' : (g.events.dropLast).getLast? = some lastE := hE
        rw [hrem] at hE'
        simp at hE'
    | some lastRemaining =>
      simp only [hR] at hok
      cases hT : lastRemaining.type with
      | game_start =>
        simp only [hT, Except.ok.injEq, Prod.mk.injEq] at hok
        obtain ⟨hg, hev⟩ := hok
        subst hg
        refine ⟨rfl, ?_, ?_, ?_⟩
        · intro h0
          have h0' : g.events.dropLast = [] := h0
          rw [h0'] at hR
          simp at hR
        · intro lastE hE hty
          show GameStatus.first_half = statusFromEvents g.events.dropLast
          rw [statusFromEvents_of_getLast _ _ hR, hT]
        · intro lastE hE h1 h2 h3
          have hE' : (g.events.dropLast).getLast? = some lastE := hE
          rw [hR] at hE'
          have heq := Option.some.inj hE'
          subst heq
          exact absurd hT h1
      | halftime =>
        simp only [hT, Except.ok.injEq, Prod.mk.injEq] at hok
        obtain ⟨hg, hev⟩ := hok
        subst hg
        refine ⟨rfl, ?_, ?_, ?_⟩
        · intro h0
          have h0' : g.events.dropLast = [] := h0
          rw [h0'] at hR
          simp at hR
        · intro lastE hE hty
          show GameStatus.halftime = statusFromEvents g.events.dropLast
          rw [statusFromEvents_of_getLast _ _ hR, hT]
        · intro lastE hE h1 h2 h3
          have hE' : (g.events.dropLast).getLast? = some lastE := hE
          rw [hR] at hE'
          have heq := Option.some.inj hE'
          subst heq
          exact absurd hT h2
      | second_half_start =>
        simp only [hT, Except.ok.injEq, Prod.mk.injEq] at hok
        obtain ⟨hg, hev⟩ := hok
        subst hg
        refine ⟨rfl, ?_, ?_, ?_⟩
        · intro h0
          have h0' : g.events.dropLast = [] := h0
          rw [h0'] at hR
          simp at hR
        · intro lastE hE hty
          show GameStatus.second_half = statusFromEvents g.events.dropLast
          rw [statusFromEvents_of_getLast _ _ hR, hT]
        · intro lastE hE h1 h2 h3
          have hE' : (g.events.dropLast).getLast? = some lastE := hE
          rw [hR] at hE'
          have heq := Option.some.inj hE'
          subst heq
          exact absurd hT h3
      | goal =>
        simp only [hT, Except.ok.injEq, Prod.mk.injEq] at hok
        obtain ⟨hg, hev⟩ := hok
        subst hg
        refine ⟨rfl, ?_, ?_, ?_⟩
        · intro h0
          have h0' : g.events.dropLast = [] := h0
          rw [h0'] at hR
          simp at hR
        · intro lastE hE hty
          have hE' : (g.events.dropLast).getLast? = some lastE := hE
          rw [hR] at hE'
          have heq := Option.some.inj hE'
          subst heq
          rcases hty with h | h | h <;> rw [hT] at h <;> cases h
        · intro lastE hE h1 h2 h3
          rfl
      | game_end =>
        simp only [hT, Except.ok.injEq, Prod.mk.injEq] at hok
        obtain ⟨hg, hev⟩ := hok
        subst hg
        refine ⟨rfl, ?_, ?_, ?_⟩
        · intro h0
          have h0' : g.events.dropLast = [] := h0
          rw [h0'] at hR
          simp at hR
        · intro lastE hE hty
          have hE' : (g.events.dropLast).getLast? = some lastE := hE
          rw [hR] at hE'
          have heq := Option.some.inj hE'
          subst heq
          rcases hty with h | h | h <;> rw [hT] at h <;> cases h
        · intro lastE hE h1 h2 h3
          rfl
      | timeout =>
        simp only [hT, Except.ok.injEq, Prod.mk.injEq] at hok
        obtain ⟨hg, hev⟩ := hok
        subst hg
        refine ⟨rfl, ?_, ?_, ?_⟩
        · intro h0
          have h0' : g.events.dropLast = [] := h0
          rw [h0'] at hR
          simp at hR
        · intro lastE hE hty
          have hE' : (g.events.dropLast).getLast? = some lastE := hE
          rw [hR] at hE'
          have heq := Option.some.inj hE'
          subst heq
          rcases hty with h | h | h <;> rw [hT] at h <;> cases h
        · intro lastE hE h1 h2 h3
          rfl
      | note =>
        simp only [hT, Except.ok.injEq, Prod.mk.injEq] at hok
        obtain ⟨hg, hev⟩ := hok
        subst hg
        refine ⟨rfl, ?_, ?_, ?_⟩
        · intro h0
          have h0' : g.events.dropLast = [] := h0
          rw [h0'] at hR
          simp at hR
        · intro lastE hE hty
          have hE' : (g.events.dropLast).getLast? = some lastE := hE
          rw [hR] at hE'
          have heq := Option.some.inj hE'
          subst heq
          rcases hty with h | h | h <;> rw [hT] at h <;> cases h
        · intro lastE hE h1 h2 h3
          rfl

/-- First event of the two-event witness game below. -/
def startEvt1 : GameEvent :=
  { id := "e1", gameId := "game_1", type := .game_start, timestamp := 1,
    score := { us := 0, them := 0 } }

/-- Example game with log GAME_START then HALFTIME. -/
def undoStartHalftimeGame : Game :=
  { id := "game_1", status := .halftime, teams := twoTeams,
    score := { us := 0, them := 0 },
    events := [startEvt1,
               { id := "e2", gameId := "game_1", type := .halftime,
                 timestamp := 2, score := { us := 0, them := 0 } }],
    startedAt := some 1, createdAt := 0, updatedAt := 2 }

/-- Result of retracting the halftime event of undoStartHalftimeGame. -/
def undoneFromUHG : Game × GameEvent :=
  (GameState.undoLastEvent undoStartHalftimeGame 9).toOption.getD
    (undoStartHalftimeGame, dummyEvent)

/-- Retraction on undoStartHalftimeGame succeeds with the payload above. -/
theorem undoneFromUHG_eq :
    GameState.undoLastEvent undoStartHalftimeGame 9 =
      .ok (undoneFromUHG.1, undoneFromUHG.2) :=
  rfl

/-- Witness for undoLastEvent_replay: after retracting the halftime event,
both the score and the status agree with the replay of the remaining log. -/
theorem undoLastEvent_replay_witness :
    undoneFromUHG.1.score = calculateScoreFromEvents undoneFromUHG.1.events ∧
    undoneFromUHG.1.status = statusFromEvents undoneFromUHG.1.events :=
  ⟨(undoLastEvent_replay undoStartHalftimeGame 9 undoneFromUHG.1 undoneFromUHG.2
      undoneFromUHG_eq).1,
   (undoLastEvent_replay undoStartHalftimeGame 9 undoneFromUHG.1 undoneFromUHG.2
      undoneFromUHG_eq).2.2.1 startEvt1 (by decide) (Or.inl rfl)⟩

/-! Embedding of the player attribution and aggregation pipeline of
StatsCalculator.ts. The two regular expressions of the source are small
enough to model exactly: a leftmost-match scanner over the character list
replaces each of them, with the word classes of JS regex syntax spelled
out over ASCII. -/

/-- ASCII uppercase letter, the class A-Z. -/
def isUpperAZ (c : Char) : Bool := 'A' ≤ c && c ≤ 'Z'

/-- ASCII lowercase letter, the class a-z. -/
def isLowerAZ (c : Char) : Bool := 'a' ≤ c && c ≤ 'z'

/-- ASCII digit, the class 0-9. -/
def isDigit09 (c : Char) : Bool := '0' ≤ c && c ≤ '9'

/-- ASCII letter of either case (the classes A-Z and a-z combined, which is
what A-Z and a-z match under the case-insensitive flag). -/
def isLetterAZ (c : Char) : Bool := isUpperAZ c || isLowerAZ c

/-- Word character of the regex word boundary: letters, digits and the
underscore (the ASCII fragment of the JS class). -/
def isWordChar (c : Char) : Bool := isUpperAZ c || isLowerAZ c || isDigit09 c || c == '_'

/-- Whitespace characters relevant to the JS whitespace class on the chat
messages and team names handled here. -/
def isSpaceChar (c : Char) : Bool := c == ' ' || c == '\t' || c == '\n' || c == '\r'

/-- First character of a list is a word character. -/
def headIsWordChar : List Char → Bool
  | [] => false
  | c :: _ => isWordChar c

/-- Leftmost-to-right scanner equivalent to matching the global pattern of
one uppercase letter followed by one or more lowercase letters between word
boundaries. A match starts at an uppercase letter not preceded by a word
character; greedily taking the maximal lowercase run is exact because
shrinking the run always leaves a word character adjacent to the boundary;
after a match the scan resumes at the first unconsumed character, and after
a failure it advances one character, as the regex engine does. The prevW
flag records whether the previous character was a word character. -/
def scanCapWordsF (fuel : Nat) (prevW : Bool) (l : List Char) : List String :=
  match fuel, l with
  | 0, _ => []
  | _ + 1, [] => []
  | fuel + 1, c :: rest =>
    if !prevW && isUpperAZ c then
      let run := rest.takeWhile isLowerAZ
      if run.length > 0 && !headIsWordChar (rest.dropWhile isLowerAZ) then
        String.mk (c :: run) :: scanCapWordsF fuel true (rest.dropWhile isLowerAZ)
      else
        scanCapWordsF fuel true rest
    else
      scanCapWordsF fuel (isWordChar c) rest

/-- Scanner entry point; every step consumes at least one character, so a
fuel of one more than the length never runs out. -/
def scanCapWords (prevW : Bool) (l : List Char) : List String :=
  scanCapWordsF (l.length + 1) prevW l

/-- Splitter on whitespace runs, modelling split on the whitespace pattern;
empty fragments (which the JS split can produce at the start) are dropped
here, which is observationally equal under the length filter applied by the
only caller. -/
def wordsByWsF (fuel : Nat) (l : List Char) : List String :=
  match fuel, l with
  | 0, _ => []
  | _ + 1, [] => []
  | fuel + 1, c :: rest =>
    if isSpaceChar c then wordsByWsF fuel rest
    else
      String.mk (c :: rest.takeWhile (fun d => !isSpaceChar d)) ::
        wordsByWsF fuel (rest.dropWhile (fun d => !isSpaceChar d))

/-- Splitter entry point; as above the fuel never runs out. -/
def wordsByWs (l : List Char) : List String :=
  wordsByWsF (l.length + 1) l

/-- Common words excluded from name extraction, verbatim from the source. -/
def commonWords : List String :=
  ["Goal", "Score", "Point", "Block", "Steal", "Timeout", "Halftime",
   "Game", "Nice", "Great", "Awesome", "Tech", "We", "They", "Us", "Them",
   "The", "And", "For", "With", "From", "Break", "Hold", "Line",
   "End", "Zone", "Opponent", "Magic", "Bard", "Pool", "Universe",
   "Final", "Good", "Win", "Lost", "First", "Second", "Half",
   "Columbia", "Westfield", "Montclair", "Beacon"]

/-- Test of the anchored uppercase-start pattern on a word. -/
def startsWithUpper (s : String) : Bool :=
  match s.data with
  | [] => false
  | c :: _ => isUpperAZ c

/-- Team-name words excluded from name extraction: words of either team
name longer than two characters that start with an uppercase letter. -/
def teamWordsOf (g : Game) : List String :=
  (wordsByWs g.teams.us.name.data).filter
      (fun w => w.length > 2 && startsWithUpper w) ++
    (wordsByWs g.teams.them.name.data).filter
      (fun w => w.length > 2 && startsWithUpper w)

/-- Translation of extractPlayerNames: capitalized words of the message
that are not common words, not team words, and longer than two characters,
in message order. -/
def extractPlayerNames (message : String) (g : Game) : List String :=
  let teamWords := teamWordsOf g
  (scanCapWords false message.data).filter
    (fun w => !commonWords.contains w && !teamWords.contains w && w.length > 2)

/-- Attempt of the assist pattern at one start position: a letter run of
length at least two, whitespace, the word to in either case, whitespace,
and a second letter run of length at least two ending at a word boundary.
Greedy maximal runs are exact here for the same reason as in scanCapWords:
every shorter choice leaves adjacent characters of the same class. -/
def tryAssistAt (c : Char) (rest : List Char) : Option (String × String) :=
  let run1 := rest.takeWhile isLetterAZ
  if run1.length = 0 then none
  else
    let afterG1 := rest.dropWhile isLetterAZ
    if (afterG1.takeWhile isSpaceChar).length = 0 then none
    else
      match afterG1.dropWhile isSpaceChar with
      | t :: o :: rest2 =>
        if (t == 't' || t == 'T') && (o == 'o' || o == 'O') then
          if (rest2.takeWhile isSpaceChar).length = 0 then none
          else
            match rest2.dropWhile isSpaceChar with
            | d :: rest3 =>
              if isLetterAZ d then
                let run2 := rest3.takeWhile isLetterAZ
                if run2.length > 0 && !headIsWordChar (rest3.dropWhile isLetterAZ) then
                  some (String.mk (c :: run1), String.mk (d :: run2))
                else none
              else none
            | [] => none
        else none
      | _ => none

/-- Leftmost match of the case-insensitive assist pattern: the first
position with a word boundary and a letter where tryAssistAt succeeds,
scanning left to right. Returns the pair of the two captured names
(assister first, as in the regex groups). -/
def findAssistMatchF (fuel : Nat) (prevW : Bool) (l : List Char) :
    Option (String × String) :=
  match fuel, l with
  | 0, _ => none
  | _ + 1, [] => none
  | fuel + 1, c :: rest =>
    if !prevW && isLetterAZ c then
      match tryAssistAt c rest with
      | some r => some r
      | none => findAssistMatchF fuel true rest
    else
      findAssistMatchF fuel (isWordChar c) rest

/-- Search entry point; as above the fuel never runs out. -/
def findAssistMatch (prevW : Bool) (l : List Char) : Option (String × String) :=
  findAssistMatchF (l.length + 1) prevW l

/-- Translation of parseGoalEvent: the assist pattern takes precedence
(assister is the first group, scorer the second); otherwise the first
extracted name is the scorer. The returned pair is (scorer, assister). -/
def parseGoalEvent (message : String) (g : Game) : Option String × Option String :=
  match findAssistMatch false message.data with
  | some (assister, scorer) => (some scorer, some assister)
  | none =>
    match extractPlayerNames message g with
    | [] => (none, none)
    | n :: _ => (some n, none)

/-- PlayerStats record of the StatsCalculator. -/
structure PlayerStats where
  name : String
  goals : Nat := 0
  assists : Nat := 0
  blocks : Nat := 0
  steals : Nat := 0
  pointsPlayed : Nat := 0
  plusMinus : Int := 0
  touches : Nat := 0
deriving DecidableEq, Repr

/-- Player map modelled as an insertion-ordered association list, matching
iteration order of a JS Map. Creation inserts at the end, as Map.set does
for a new key. -/
def ensurePlayer (m : List (String × PlayerStats)) (name : String) :
    List (String × PlayerStats) :=
  if m.any (fun e => e.1 == name) then m else m ++ [(name, { name := name })]

/-- In-place mutation of the entry of a key, as the JS code mutates the
object returned by Map.get. Missing keys are untouched. -/
def adjustPlayer (m : List (String × PlayerStats)) (name : String)
    (f : PlayerStats → PlayerStats) : List (String × PlayerStats) :=
  m.map (fun e => if e.1 == name then (e.1, f e.2) else e)

/-- Combination getOrCreatePlayerStats followed by a mutation. -/
def updatePlayer (m : List (String × PlayerStats)) (name : String)
    (f : PlayerStats → PlayerStats) : List (String × PlayerStats) :=
  adjustPlayer (ensurePlayer m name) name f

/-- Touch increment applied to each named player in order. -/
def touchPlayers (m : List (String × PlayerStats)) (names : List String) :
    List (String × PlayerStats) :=
  names.foldl (fun m n => updatePlayer m n (fun st => { st with touches := st.touches + 1 })) m

/-- Set insertion preserving first-insertion order, as a JS Set. -/
def insertName (s : List String) (n : String) : List String :=
  if s.contains n then s else s ++ [n]

/-- Insertion of many names in order. -/
def insertNames (s : List String) (ns : List String) : List String :=
  ns.foldl insertName s

/-- State of the main event loop of calculatePlayerStats. -/
structure PSAcc where
  playerMap : List (String × PlayerStats)
  pointScores : List (Score × List String)
  currentPointPlayers : List String
deriving Repr

/-- Body of the main event loop of calculatePlayerStats: events without a
truthy message are skipped entirely; otherwise the extracted names join the
current point set; a goal of ours credits the parsed scorer and assister
(and a block or steal to the scorer) and closes the point; a goal of theirs
closes the point and credits touches to the mentioned names; any other
event credits touches only. -/
def playerStatsStep (g : Game) (acc : PSAcc) (event : GameEvent) : PSAcc :=
  match event.message with
  | none => acc
  | some msg =>
    if msg = "" then acc
    else
      let players := extractPlayerNames msg g
      let cur := insertNames acc.currentPointPlayers players
      if event.type == EventType.goal && event.team == some TeamSide.us then
        let scorerAssister := parseGoalEvent msg g
        let m := acc.playerMap
        let m :=
          match scorerAssister.1 with
          | some s => updatePlayer m s
              (fun st => { st with goals := st.goals + 1, touches := st.touches + 1 })
          | none => m
        let m :=
          match scorerAssister.2 with
          | some a => updatePlayer m a
              (fun st => { st with assists := st.assists + 1, touches := st.touches + 1 })
          | none => m
        let m :=
          match event.defensivePlay, scorerAssister.1 with
          | some .block, some s => updatePlayer m s (fun st => { st with blocks := st.blocks + 1 })
          | some .steal, some s => updatePlayer m s (fun st => { st with steals := st.steals + 1 })
          | _, _ => m
        { playerMap := m,
          pointScores := acc.pointScores ++ [(event.score, cur)],
          currentPointPlayers := [] }
      else if event.type == EventType.goal && event.team == some TeamSide.them then
        { playerMap := touchPlayers acc.playerMap players,
          pointScores := acc.pointScores ++ [(event.score, cur)],
          currentPointPlayers := [] }
      else
        { acc with
          playerMap := touchPlayers acc.playerMap players,
          currentPointPlayers := cur }

/-- Translation of calculatePlusMinus: walk the closed points, apply each
score differential to the players recorded on the point (existing entries
only), carrying the previous score. The unused finalScore parameter of the
source is omitted. -/
def applyPlusMinus (m : List (String × PlayerStats))
    (pointScores : List (Score × List String)) : List (String × PlayerStats) :=
  (pointScores.foldl
    (fun (acc : List (String × PlayerStats) × Score) pt =>
      let diff : Int :=
        ((pt.1.us : Int) - (acc.2.us : Int)) - ((pt.1.them : Int) - (acc.2.them : Int))
      (pt.2.foldl
        (fun m n => adjustPlayer m n (fun st => { st with plusMinus := st.plusMinus + diff }))
        acc.1,
       pt.1))
    (m, ({ us := 0, them := 0 } : Score))).1

/-- Points-played estimate pass: goals plus assists plus half the touches,
capped at the total number of points of the game. -/
def applyPointsPlayed (m : List (String × PlayerStats)) (totalPoints : Nat) :
    List (String × PlayerStats) :=
  m.map (fun e =>
    (e.1, { e.2 with
      pointsPlayed := min (e.2.goals + e.2.assists + e.2.touches / 2) totalPoints }))

/-- Strict-before relation of the final sort of calculatePlayerStats:
goals descending, then assists descending (ties keep insertion order under
the stable sort). -/
def playerBefore (a b : PlayerStats) : Bool :=
  b.goals < a.goals || (a.goals == b.goals && b.assists < a.assists)

/-- Translation of calculatePlayerStats: the event fold, the plus-minus
pass, the points-played pass, and the stable sort of the map values. -/
def calculatePlayerStats (g : Game) : List PlayerStats :=
  let acc := g.events.foldl (playerStatsStep g)
    { playerMap := [], pointScores := [], currentPointPlayers := [] }
  let m := applyPlusMinus acc.playerMap acc.pointScores
  let m2 := applyPointsPlayed m (g.score.us + g.score.them)
  stableSort playerBefore (m2.map Prod.snd)

/-- AggregatedPlayerStats record of the StatsCalculator; the per-game
averages are exact rationals. -/
structure AggregatedPlayerStats where
  name : String
  goals : Nat := 0
  assists : Nat := 0
  blocks : Nat := 0
  steals : Nat := 0
  pointsPlayed : Nat := 0
  plusMinus : Int := 0
  touches : Nat := 0
  gamesPlayed : Nat := 0
  goalsPerGame : ℚ := 0
  assistsPerGame : ℚ := 0
  blocksPerGame : ℚ := 0
  stealsPerGame : ℚ := 0
deriving DecidableEq, Repr

/-- Accumulation of one per-game stat line into an aggregated entry,
including the gamesPlayed increment. -/
def addGameStats (a : AggregatedPlayerStats) (ps : PlayerStats) : AggregatedPlayerStats :=
  { a with
    goals := a.goals + ps.goals,
    assists := a.assists + ps.assists,
    blocks := a.blocks + ps.blocks,
    steals := a.steals + ps.steals,
    pointsPlayed := a.pointsPlayed + ps.pointsPlayed,
    plusMinus := a.plusMinus + ps.plusMinus,
    touches := a.touches + ps.touches,
    gamesPlayed := a.gamesPlayed + 1 }

/-- Aggregated map creation, as ensurePlayer. -/
def ensureAgg (m : List (String × AggregatedPlayerStats)) (name : String) :
    List (String × AggregatedPlayerStats) :=
  if m.any (fun e => e.1 == name) then m else m ++ [(name, { name := name })]

/-- Aggregated map mutation at a key, as adjustPlayer. -/
def adjustAgg (m : List (String × AggregatedPlayerStats)) (name : String)
    (f : AggregatedPlayerStats → AggregatedPlayerStats) :
    List (String × AggregatedPlayerStats) :=
  m.map (fun e => if e.1 == name then (e.1, f e.2) else e)

/-- One step of the aggregation fold: create the entry if needed, then add
the per-game stat line. -/
def aggStep (m : List (String × AggregatedPlayerStats)) (ps : PlayerStats) :
    List (String × AggregatedPlayerStats) :=
  adjustAgg (ensureAgg m ps.name) ps.name (fun a => addGameStats a ps)

/-- Per-game average pass of aggregatePlayerStats. The source divides
unconditionally; every aggregated entry has gamesPlayed at least one, so
the rational division is exact. -/
def withAverages (a : AggregatedPlayerStats) : AggregatedPlayerStats :=
  { a with
    goalsPerGame := (a.goals : ℚ) / (a.gamesPlayed : ℚ),
    assistsPerGame := (a.assists : ℚ) / (a.gamesPlayed : ℚ),
    blocksPerGame := (a.blocks : ℚ) / (a.gamesPlayed : ℚ),
    stealsPerGame := (a.steals : ℚ) / (a.gamesPlayed : ℚ) }

/-- Strict-before relation of the final sort of aggregatePlayerStats. -/
def aggBefore (a b : AggregatedPlayerStats) : Bool :=
  b.goals < a.goals || (a.goals == b.goals && b.assists < a.assists)

/-- Translation of aggregatePlayerStats: per game, fold the per-game stat
lines into the aggregated map; then compute per-game averages and sort the
values by total goals then assists. -/
def aggregatePlayerStats (games : List Game) : List AggregatedPlayerStats :=
  let m := games.foldl (fun m g => (calculatePlayerStats g).foldl aggStep m) []
  stableSort aggBefore ((m.map (fun e => (e.1, withAverages e.2))).map Prod.snd)

/-- Lookup in the aggregated map: first entry with the key, as Map.get. -/
def lookupAgg : List (String × AggregatedPlayerStats) → String →
    Option AggregatedPlayerStats
  | [], _ => none
  | e :: rest, p => if e.1 == p then some e.2 else lookupAgg rest p

/-- Lookup across an append: the left part wins. -/
theorem lookupAgg_append (m1 m2 : List (String × AggregatedPlayerStats)) (p : String) :
    lookupAgg (m1 ++ m2) p =
      (match lookupAgg m1 p with
       | some a => some a
       | none => lookupAgg m2 p) := by
  induction m1 with
  | nil => simp [lookupAgg]
  | cons e rest ih =>
    cases h : (e.1 == p) <;> simp [lookupAgg, h, ih]

/-- Key presence decided by any agrees with lookup. -/
theorem lookupAgg_isSome_of_any (m : List (String × AggregatedPlayerStats)) (p : String)
    (h : m.any (fun e => e.1 == p) = true) :
    ∃ a, lookupAgg m p = some a := by
  induction m with
  | nil => simp at h
  | cons e rest ih =>
    cases he : (e.1 == p) with
    | true => exact ⟨e.2, by simp [lookupAgg, he]⟩
    | false =>
      have h' : rest.any (fun e => e.1 == p) = true := by
        simpa [List.any_cons, he] using h
      obtain ⟨a, ha⟩ := ih h'
      exact ⟨a, by simp [lookupAgg, he, ha]⟩

/-- Absence decided by any agrees with lookup. -/
theorem lookupAgg_none_of_not_any (m : List (String × AggregatedPlayerStats)) (p : String)
    (h : m.any (fun e => e.1 == p) = false) :
    lookupAgg m p = none := by
  induction m with
  | nil => rfl
  | cons e rest ih =>
    rw [List.any_cons, Bool.or_eq_false_iff] at h
    simp [lookupAgg, h.1, ih h.2]

/-- Creation of a foreign key does not disturb a lookup. -/
theorem lookupAgg_ensure_ne (m : List (String × AggregatedPlayerStats))
    (name p : String) (h : name ≠ p) :
    lookupAgg (ensureAgg m name) p = lookupAgg m p := by
  unfold ensureAgg
  split
  · rfl
  · rw [lookupAgg_append]
    have hn : ((name, ({ name := name } : AggregatedPlayerStats)).1 == p) = false := by
      simpa using h
    cases hf : lookupAgg m p <;> simp [lookupAgg, hn]

/-- Lookup after creation of the same key: the old entry if present, the
fresh entry otherwise. -/
theorem lookupAgg_ensure_self (m : List (String × AggregatedPlayerStats)) (name : String) :
    lookupAgg (ensureAgg m name) name =
      some ((lookupAgg m name).getD { name := name }) := by
  unfold ensureAgg
  split
  · rename_i hany
    obtain ⟨a, ha⟩ := lookupAgg_isSome_of_any m name hany
    simp [ha]
  · rename_i hany
    have hnone : lookupAgg m name = none :=
      lookupAgg_none_of_not_any m name (Bool.eq_false_iff.mpr hany)
    rw [lookupAgg_append, hnone]
    simp [lookupAgg]

/-- Mutation at a key as seen through lookup. -/
theorem lookupAgg_adjust (m : List (String × AggregatedPlayerStats))
    (name p : String) (f : AggregatedPlayerStats → AggregatedPlayerStats) :
    lookupAgg (adjustAgg m name f) p =
      if name = p then (lookupAgg m p).map f else lookupAgg m p := by
  induction m with
  | nil => by_cases h : name = p <;> simp [adjustAgg, lookupAgg, h]
  | cons e rest ih =>
    have hstep : adjustAgg (e :: rest) name f =
        (if e.1 == name then (e.1, f e.2) else e) :: adjustAgg rest name f := rfl
    rw [hstep]
    by_cases hen : e.1 = name
    · have henb : (e.1 == name) = true := by simpa using hen
      by_cases hep : e.1 = p
      · have hnp : name = p := hen.symm.trans hep
        have hepb : (e.1 == p) = true := by simpa using hep
        simp [lookupAgg, henb, hepb, hnp]
      · have hnp : name ≠ p := fun hc => hep (hen.trans hc)
        have hepb : (e.1 == p) = false := by simpa using hep
        simp [lookupAgg, henb, hepb, hnp, ih]
    · have henb : (e.1 == name) = false := by simpa using hen
      by_cases hep : e.1 = p
      · have hepb : (e.1 == p) = true := by simpa using hep
        by_cases hnp : name = p
        · exact absurd (hnp.trans hep.symm).symm hen
        · simp [lookupAgg, henb, hepb, hnp]
      · have hepb : (e.1 == p) = false := by simpa using hep
        simp [lookupAgg, henb, hepb, ih]

/-- One aggregation step as seen through lookup: the stat line lands on its
own key and nothing else moves. -/
theorem lookupAgg_aggStep (m : List (String × AggregatedPlayerStats)) (q : PlayerStats)
    (p : String) :
    lookupAgg (aggStep m q) p =
      if q.name = p then
        some (addGameStats ((lookupAgg m p).getD { name := p }) q)
      else lookupAgg m p := by
  unfold aggStep
  rw [lookupAgg_adjust]
  by_cases h : q.name = p
  · subst h
    rw [if_pos rfl, if_pos rfl, lookupAgg_ensure_self]
    simp
  · rw [if_neg h, if_neg h, lookupAgg_ensure_ne m q.name p h]

/-- Folding a list of stat lines into the aggregated map, as seen through
one lookup: only the lines of that player act, in order. -/
theorem lookupAgg_foldl (L : List PlayerStats) (m : List (String × AggregatedPlayerStats))
    (p : String) :
    lookupAgg (L.foldl aggStep m) p =
      (L.filter (fun s => s.name == p)).foldl
        (fun o q => some (addGameStats (o.getD { name := p }) q)) (lookupAgg m p) := by
  induction L generalizing m with
  | nil => simp
  | cons q L ih =>
    cases hq : (q.name == p) with
    | true =>
      have h : q.name = p := by simpa using hq
      simp only [List.foldl_cons, List.filter_cons, hq, if_true]
      rw [ih, lookupAgg_aggStep, if_pos h]
    | false =>
      have h : q.name ≠ p := by simpa using hq
      simp only [List.foldl_cons, List.filter_cons, hq, Bool.false_eq_true, if_false]
      rw [ih, lookupAgg_aggStep, if_neg h]

/-- Lookup success produces a member entry. -/
theorem lookupAgg_mem (m : List (String × AggregatedPlayerStats)) (p : String)
    (a : AggregatedPlayerStats) (h : lookupAgg m p = some a) : (p, a) ∈ m := by
  induction m with
  | nil => simp [lookupAgg] at h
  | cons e rest ih =>
    cases he : (e.1 == p) with
    | true =>
      rw [lookupAgg, he, if_pos rfl] at h
      have h1 : e.1 = p := by simpa using he
      have h2 : e.2 = a := Option.some.inj h
      have : e = (p, a) := by
        cases e
        simp only at h1 h2
        rw [h1, h2]
      rw [← this]
      exact List.mem_cons_self e rest
    | false =>
      rw [lookupAgg, he] at h
      simp only [Bool.false_eq_true, if_false] at h
      exact List.mem_cons_of_mem e (ih h)

/-- Under distinct keys, a successful find determines the whole filter. -/
theorem filter_eq_single {α : Type} (f : α → String) (l : List α) (p : String) (s : α)
    (hnd : (l.map f).Nodup) (hfind : l.find? (fun x => f x == p) = some s) :
    l.filter (fun x => f x == p) = [s] := by
  induction l with
  | nil => simp at hfind
  | cons x xs ih =>
    rw [List.map_cons, List.nodup_cons] at hnd
    rw [List.find?_cons] at hfind
    rw [List.filter_cons]
    cases hx : (f x == p) with
    | true =>
      rw [hx] at hfind
      have hxs : x = s := Option.some.inj hfind
      have hrest : xs.filter (fun y => f y == p) = [] := by
        rw [List.filter_eq_nil_iff]
        intro y hy hyp
        have h1 : f y = p := by simpa using hyp
        have h2 : f x = p := by simpa using hx
        exact hnd.1 (h2 ▸ h1 ▸ List.mem_map_of_mem f hy)
      simp [hxs, hrest]
    | false =>
      rw [hx] at hfind
      simp only [Bool.false_eq_true, if_false]
      have hfind' : xs.find? (fun y => f y == p) = some s := hfind
      exact ih hnd.2 hfind'

/-- Well-formedness of the per-game player map: keys are distinct and every
entry stores its key as its name, as the JS Map does. -/
def PMapInv (m : List (String × PlayerStats)) : Prop :=
  (m.map Prod.fst).Nodup ∧ ∀ e ∈ m, e.2.name = e.1

/-- Creation preserves well-formedness. -/
theorem pmapInv_ensure (m : List (String × PlayerStats)) (name : String)
    (h : PMapInv m) : PMapInv (ensurePlayer m name) := by
  unfold ensurePlayer
  split
  · exact h
  · rename_i hany
    constructor
    · rw [List.map_append, List.nodup_append]
      refine ⟨h.1, by simp, ?_⟩
      intro a ha hb
      simp only [List.map_cons, List.map_nil, List.mem_singleton] at hb
      subst hb
      rw [List.mem_map] at ha
      obtain ⟨e, hmem, he⟩ := ha
      exact hany (List.any_eq_true.mpr ⟨e, hmem, by simpa using he⟩)
    · intro e he
      rcases List.mem_append.mp he with h1 | h1
      · exact h.2 e h1
      · simp only [List.mem_singleton] at h1
        subst h1
        rfl

/-- Mutation with a name-preserving function preserves well-formedness. -/
theorem pmapInv_adjust (m : List (String × PlayerStats)) (name : String)
    (f : PlayerStats → PlayerStats) (hf : ∀ s, (f s).name = s.name)
    (h : PMapInv m) : PMapInv (adjustPlayer m name f) := by
  constructor
  · have hkeys : (adjustPlayer m name f).map Prod.fst = m.map Prod.fst := by
      unfold adjustPlayer
      rw [List.map_map]
      apply List.map_congr_left
      intro e he
      simp only [Function.comp]
      split <;> rfl
    rw [hkeys]
    exact h.1
  · intro e he
    unfold adjustPlayer at he
    rw [List.mem_map] at he
    obtain ⟨e0, he0, heq⟩ := he
    subst heq
    split
    · simpa [hf] using h.2 e0 he0
    · exact h.2 e0 he0

/-- Combined create-then-mutate preserves well-formedness. -/
theorem pmapInv_update (m : List (String × PlayerStats)) (name : String)
    (f : PlayerStats → PlayerStats) (hf : ∀ s, (f s).name = s.name)
    (h : PMapInv m) : PMapInv (updatePlayer m name f) :=
  pmapInv_adjust _ _ _ hf (pmapInv_ensure _ _ h)

/-- Touch pass preserves well-formedness. -/
theorem pmapInv_touch (m : List (String × PlayerStats)) (names : List String)
    (h : PMapInv m) : PMapInv (touchPlayers m names) := by
  induction names generalizing m with
  | nil => exact h
  | cons n ns ih =>
    exact ih _ (pmapInv_update m n _ (fun s => rfl) h)

/-- One step of the main event loop preserves well-formedness of the map. -/
theorem pmapInv_step (g : Game) (acc : PSAcc) (event : GameEvent)
    (h : PMapInv acc.playerMap) : PMapInv (playerStatsStep g acc event).playerMap := by
  cases hm : event.message with
  | none =>
    simp only [playerStatsStep, hm]
    exact h
  | some msg =>
    by_cases hempty : msg = ""
    · simp only [playerStatsStep, hm, hempty, if_pos rfl]
      exact h
    · simp only [playerStatsStep, hm, if_neg hempty]
      split
      · cases hsc : (parseGoalEvent msg g).1 with
        | none =>
          cases has : (parseGoalEvent msg g).2 with
          | none =>
            cases hd : event.defensivePlay with
            | none => dsimp only; exact h
            | some pl => cases pl <;> (dsimp only; exact h)
          | some a =>
            cases hd : event.defensivePlay with
            | none => dsimp only; exact pmapInv_update _ _ _ (fun s => rfl) h
            | some pl =>
              cases pl <;> (dsimp only; exact pmapInv_update _ _ _ (fun s => rfl) h)
        | some s =>
          cases has : (parseGoalEvent msg g).2 with
          | none =>
            cases hd : event.defensivePlay with
            | none => dsimp only; exact pmapInv_update _ _ _ (fun s => rfl) h
            | some pl =>
              cases pl <;>
                (dsimp only
                 exact pmapInv_update _ _ _ (fun s => rfl)
                  (pmapInv_update _ _ _ (fun s => rfl) h))
          | some a =>
            cases hd : event.defensivePlay with
            | none =>
              dsimp only
              exact pmapInv_update _ _ _ (fun s => rfl)
                (pmapInv_update _ _ _ (fun s => rfl) h)
            | some pl =>
              cases pl <;>
                (dsimp only
                 exact pmapInv_update _ _ _ (fun s => rfl)
                  (pmapInv_update _ _ _ (fun s => rfl)
                    (pmapInv_update _ _ _ (fun s => rfl) h)))
      · split
        · exact pmapInv_touch _ _ h
        · exact pmapInv_touch _ _ h

/-- The whole event fold preserves well-formedness of the map. -/
theorem pmapInv_fold (g : Game) (events : List GameEvent) (acc : PSAcc)
    (h : PMapInv acc.playerMap) :
    PMapInv ((events.foldl (playerStatsStep g) acc).playerMap) := by
  induction events generalizing acc with
  | nil => exact h
  | cons e es ih => exact ih _ (pmapInv_step g acc e h)

/-- The plus-minus pass preserves well-formedness. -/
theorem pmapInv_plusMinus (m : List (String × PlayerStats))
    (pts : List (Score × List String)) (h : PMapInv m) :
    PMapInv (applyPlusMinus m pts) := by
  unfold applyPlusMinus
  suffices hgen : ∀ (st : List (String × PlayerStats) × Score), PMapInv st.1 →
      PMapInv ((pts.foldl
        (fun (acc : List (String × PlayerStats) × Score) pt =>
          let diff : Int :=
            ((pt.1.us : Int) - (acc.2.us : Int)) - ((pt.1.them : Int) - (acc.2.them : Int))
          (pt.2.foldl
            (fun m n => adjustPlayer m n
              (fun st => { st with plusMinus := st.plusMinus + diff })) acc.1,
           pt.1)) st).1) by
    exact hgen (m, { us := 0, them := 0 }) h
  induction pts with
  | nil => intro st hst; exact hst
  | cons pt pts ih =>
    intro st hst
    apply ih
    have hinner : ∀ (names : List String) (m0 : List (String × PlayerStats)) (d : Int),
        PMapInv m0 →
        PMapInv (names.foldl
          (fun m n => adjustPlayer m n
            (fun st => { st with plusMinus := st.plusMinus + d })) m0) := by
      intro names
      induction names with
      | nil => intro m0 d h0; exact h0
      | cons n ns ihn =>
        intro m0 d h0
        exact ihn _ d (pmapInv_adjust m0 n _ (fun s => rfl) h0)
    exact hinner pt.2 st.1 _ hst

/-- The points-played pass preserves well-formedness. -/
theorem pmapInv_pointsPlayed (m : List (String × PlayerStats)) (tp : Nat)
    (h : PMapInv m) : PMapInv (applyPointsPlayed m tp) := by
  constructor
  · have hkeys : (applyPointsPlayed m tp).map Prod.fst = m.map Prod.fst := by
      unfold applyPointsPlayed
      rw [List.map_map]
      apply List.map_congr_left
      intro e he
      rfl
    rw [hkeys]
    exact h.1
  · intro e he
    unfold applyPointsPlayed at he
    rw [List.mem_map] at he
    obtain ⟨e0, he0, heq⟩ := he
    subst heq
    simpa using h.2 e0 he0

/-- Names of the per-game stat lines are pairwise distinct. -/
theorem calculatePlayerStats_names_nodup (g : Game) :
    ((calculatePlayerStats g).map (fun s => s.name)).Nodup := by
  unfold calculatePlayerStats
  have hinv : PMapInv (applyPointsPlayed
      (applyPlusMinus
        (g.events.foldl (playerStatsStep g)
          { playerMap := [], pointScores := [], currentPointPlayers := [] }).playerMap
        (g.events.foldl (playerStatsStep g)
          { playerMap := [], pointScores := [], currentPointPlayers := [] }).pointScores)
      (g.score.us + g.score.them)) :=
    pmapInv_pointsPlayed _ _ (pmapInv_plusMinus _ _
      (pmapInv_fold g g.events _ ⟨by simp, by simp⟩))
  set m2 := applyPointsPlayed
      (applyPlusMinus
        (g.events.foldl (playerStatsStep g)
          { playerMap := [], pointScores := [], currentPointPlayers := [] }).playerMap
        (g.events.foldl (playerStatsStep g)
          { playerMap := [], pointScores := [], currentPointPlayers := [] }).pointScores)
      (g.score.us + g.score.them) with hm2
  have hnames : (m2.map Prod.snd).map (fun s => s.name) = m2.map Prod.fst := by
    rw [List.map_map]
    apply List.map_congr_left
    intro e he
    exact hinv.2 e he
  have hperm : ((stableSort playerBefore (m2.map Prod.snd)).map (fun s => s.name)).Perm
      ((m2.map Prod.snd).map (fun s => s.name)) :=
    (stableSort_perm playerBefore (m2.map Prod.snd)).map _
  rw [hperm.nodup_iff, hnames]
  exact hinv.1

/-- C9: aggregating player stats over two games in which the same attributed
player has one goal in the first game and two in the second yields, for that
player, three goals, two games played, and a per-game goal average of three
halves (total goals divided by the number of games the player appears in). -/
theorem aggregate_two_games (g1 g2 : Game) (p : String) (s1 s2 : PlayerStats)
    (h1 : (calculatePlayerStats g1).find? (fun s => s.name == p) = some s1)
    (h2 : (calculatePlayerStats g2).find? (fun s => s.name == p) = some s2)
    (hg1 : s1.goals = 1) (hg2 : s2.goals = 2) :
    ∃ a ∈ aggregatePlayerStats [g1, g2],
      a.name = p ∧ a.goals = 3 ∧ a.gamesPlayed = 2 ∧ a.goalsPerGame = 3 / 2 := by
  have hf1 : (calculatePlayerStats g1).filter (fun s => s.name == p) = [s1] :=
    filter_eq_single (fun s => s.name) _ p s1 (calculatePlayerStats_names_nodup g1) h1
  have hf2 : (calculatePlayerStats g2).filter (fun s => s.name == p) = [s2] :=
    filter_eq_single (fun s => s.name) _ p s2 (calculatePlayerStats_names_nodup g2) h2
  have hl1 : lookupAgg ((calculatePlayerStats g1).foldl aggStep []) p =
      some (addGameStats { name := p } s1) := by
    rw [lookupAgg_foldl, hf1]
    simp [lookupAgg]
  have hl2 : lookupAgg
      ((calculatePlayerStats g2).foldl aggStep ((calculatePlayerStats g1).foldl aggStep [])) p =
      some (addGameStats (addGameStats { name := p } s1) s2) := by
    rw [lookupAgg_foldl, hf2, hl1]
    simp
  have hmem : (p, addGameStats (addGameStats { name := p } s1) s2) ∈
      ((calculatePlayerStats g2).foldl aggStep ((calculatePlayerStats g1).foldl aggStep [])) :=
    lookupAgg_mem _ _ _ hl2
  have hmem2 : withAverages (addGameStats (addGameStats { name := p } s1) s2) ∈
      (((calculatePlayerStats g2).foldl aggStep
          ((calculatePlayerStats g1).foldl aggStep [])).map
        (fun e => (e.1, withAverages e.2))).map Prod.snd :=
    List.mem_map_of_mem Prod.snd
      (List.mem_map_of_mem (fun e => (e.1, withAverages e.2)) hmem)
  have hsort : withAverages (addGameStats (addGameStats { name := p } s1) s2) ∈
      aggregatePlayerStats [g1, g2] := by
    unfold aggregatePlayerStats
    exact (stableSort_perm aggBefore _).mem_iff.mpr hmem2
  refine ⟨withAverages (addGameStats (addGameStats { name := p } s1) s2), hsort, ?_, ?_, ?_, ?_⟩
  · simp [withAverages, addGameStats]
  · simp [withAverages, addGameStats, hg1, hg2]
  · simp [withAverages, addGameStats]
  · simp only [withAverages, addGameStats, hg1, hg2]
    norm_num

/-- First witness game: one goal of ours with the message Mason. -/
def masonGame1 : Game :=
  { id := "wg1", status := .finished, teams := twoTeams,
    score := { us := 1, them := 0 },
    events := [{ id := "e1", gameId := "wg1", type := .goal, timestamp := 2,
                 score := { us := 1, them := 0 }, team := some .us,
                 message := some "Mason" }],
    createdAt := 0, updatedAt := 0 }

/-- Second witness game: two goals of ours, the second with an assist from
Jake to Mason. -/
def masonGame2 : Game :=
  { id := "wg2", status := .finished, teams := twoTeams,
    score := { us := 2, them := 0 },
    events := [{ id := "e1", gameId := "wg2", type := .goal, timestamp := 2,
                 score := { us := 1, them := 0 }, team := some .us,
                 message := some "Mason goal" },
               { id := "e2", gameId := "wg2", type := .goal, timestamp := 3,
                 score := { us := 2, them := 0 }, team := some .us,
                 message := some "Jake to Mason" }],
    createdAt := 0, updatedAt := 0 }

/-- Stat line of Mason in the first witness game. -/
def masonStats1 : PlayerStats :=
  { name := "Mason", goals := 1, assists := 0, blocks := 0, steals := 0,
    pointsPlayed := 1, plusMinus := 1, touches := 1 }

/-- Stat line of Mason in the second witness game. -/
def masonStats2 : PlayerStats :=
  { name := "Mason", goals := 2, assists := 0, blocks := 0, steals := 0,
    pointsPlayed := 2, plusMinus := 2, touches := 2 }

/-- Witness for aggregate_two_games on the two Mason games. -/
theorem aggregate_two_games_witness :
    ∃ a ∈ aggregatePlayerStats [masonGame1, masonGame2],
      a.name = "Mason" ∧ a.goals = 3 ∧ a.gamesPlayed = 2 ∧ a.goalsPerGame = 3 / 2 :=
  aggregate_two_games masonGame1 masonGame2 "Mason" masonStats1 masonStats2
    (by decide) (by decide) (by decide) (by decide)

end Scorebot
